import Mathlib

/-!
Verification development for the market-making strategy & reconciliation
engine (mirror strategy reconciler, volume filter, TWAP bucket scheduler,
fill-offset surplus tracker).

Numbers are embedded as exact rationals.  The repository's `model.Number`
type (a fixed-precision decimal carrying its own precision) is not part of
the strategy sources, so it is modelled from the spec's data-model section:
arithmetic rounds deterministically at the stated precision, precision
capping truncates, and equality comparisons use an epsilon tolerance after
normalizing both operands to a matching (the coarser) precision.
-/

namespace Spec2Proof

/-- Rounds a rational to `p` decimal digits (round-half-up, deterministic). -/
def roundToPrec (q : ℚ) (p : ℕ) : ℚ := (round (q * 10 ^ p) : ℚ) / 10 ^ p

/-- Truncates a rational towards negative infinity at `p` decimal digits
(used for precision *capping*). -/
def truncToPrec (q : ℚ) (p : ℕ) : ℚ := ((⌊q * 10 ^ p⌋ : ℤ) : ℚ) / 10 ^ p

/-- Modelled from the spec: `model.Number`, a fixed-precision decimal value
carrying its own precision (digits after the decimal point). -/
structure Number where
  val : ℚ
  prec : ℕ
deriving DecidableEq, Repr

/-- Modelled from the spec: `model.NumberFromFloat` — builds a `Number` by
rounding the value at the stated precision. -/
def numberFromFloat (q : ℚ) (p : ℕ) : Number := ⟨roundToPrec q p, p⟩

/-- Modelled from the spec: `model.NumberByCappingPrecision` — caps a number's
precision at most at `p`, truncating the value at the resulting precision. -/
def numberByCappingPrecision (n : Number) (p : ℕ) : Number :=
  ⟨truncToPrec n.val (min n.prec p), min n.prec p⟩

namespace Number

/-- Modelled from the spec: `Number.Add` — binary arithmetic normalizes to the
matching (coarser) precision and rounds the result there. -/
def add (a b : Number) : Number := numberFromFloat (a.val + b.val) (min a.prec b.prec)

/-- Modelled from the spec: `Number.Subtract`. -/
def sub (a b : Number) : Number := numberFromFloat (a.val - b.val) (min a.prec b.prec)

/-- Modelled from the spec: `Number.Multiply`. -/
def mul (a b : Number) : Number := numberFromFloat (a.val * b.val) (min a.prec b.prec)

/-- Modelled from the spec: `Number.Scale` — scales the value, keeping the
number's own precision. -/
def scale (a : Number) (f : ℚ) : Number := numberFromFloat (a.val * f) a.prec

/-- Modelled from the spec: `model.InvertNumber`. -/
def invert (a : Number) : Number := numberFromFloat a.val⁻¹ a.prec

/-- Modelled from the spec: `Number.EqualsPrecisionNormalized` — equality
within an absolute epsilon tolerance after normalizing both operands to the
matching precision. -/
def equalsPrecisionNormalized (a b : Number) (eps : ℚ) : Bool :=
  let p := min a.prec b.prec
  decide (|roundToPrec a.val p - roundToPrec b.val p| < eps)

end Number

/-! ## Volume filter (`volumeFilter.go`) -/

/-- `volumeFilterMode`: `exact` or `ignore`. -/
inductive VolumeFilterMode where
  | exact
  | ignore
deriving DecidableEq, Repr

/-- `VolumeFilterConfig`: independently optional caps on daily base units and
quote units sold, plus the mode. -/
structure VolumeFilterConfig where
  sellBaseAssetCapInBaseUnits : Option ℚ
  sellBaseAssetCapInQuoteUnits : Option ℚ
  mode : VolumeFilterMode
deriving DecidableEq, Repr

/-- The running daily to-be-booked totals (`dailyTBB`), accumulated across the
operations processed earlier in the same `Apply` call. -/
structure DailyTBB where
  tbbBase : ℚ
  tbbQuote : ℚ
deriving DecidableEq, Repr

/-- A `txnbuild.ManageSellOffer` operation as far as the volume filter reads
it: the selling/buying assets and the parsed price and amount. -/
structure SellOp where
  selling : String
  buying : String
  price : ℚ
  amount : ℚ
deriving DecidableEq, Repr

/-- Modelled from the spec: `utils.IsSelling` — an operation is a sell with
respect to the configured market when it sells the base asset for the quote
asset; selling the quote asset for the base asset is a buy; any other
asset combination is an error. -/
def isSelling (baseAsset quoteAsset : String) (selling buying : String) :
    Except String Bool :=
  if selling = baseAsset ∧ buying = quoteAsset then .ok true
  else if selling = quoteAsset ∧ buying = baseAsset then .ok false
  else .error "invalid assets"

/-- `volumeFilter.volumeFilterFn`: decides whether one candidate operation is
kept (possibly shrunk) or dropped, and returns the updated to-be-booked
totals.  The shrunk amount written back onto the operation is formatted with
seven decimal digits (`%.7f`), while the unrounded shrunk amount feeds the
subsequent quote-unit check and the to-be-booked accumulation, exactly as in
the source. -/
def volumeFilterFn (baseAsset quoteAsset : String) (config : VolumeFilterConfig)
    (otbBase otbQuote : ℚ) (tbb : DailyTBB) (op : SellOp) :
    Except String (Option SellOp × DailyTBB) := do
  let isSell ← isSelling baseAsset quoteAsset op.selling op.buying
  if isSell then
    -- base-units check
    let resBase : Bool × ℚ × ℚ :=
      match config.sellBaseAssetCapInBaseUnits with
      | none => (true, op.amount, op.amount)
      | some cap =>
        let projectedSoldInBaseUnits := otbBase + tbb.tbbBase + op.amount
        if projectedSoldInBaseUnits ≤ cap then (true, op.amount, op.amount)
        else if config.mode = .exact then
          let newAmount := cap - otbBase - tbb.tbbBase
          if newAmount > 0 then (true, newAmount, roundToPrec newAmount 7)
          else (false, op.amount, op.amount)
        else (false, op.amount, op.amount)
    let keepSellingBase := resBase.1
    let amountCalc1 := resBase.2.1
    let amountField1 := resBase.2.2
    -- quote-units check, using the (possibly already shrunk) amount
    let resQuote : Bool × ℚ × ℚ :=
      match config.sellBaseAssetCapInQuoteUnits with
      | none => (true, amountCalc1, amountField1)
      | some cap =>
        let projectedSoldInQuoteUnits := otbQuote + tbb.tbbQuote + amountCalc1 * op.price
        if projectedSoldInQuoteUnits ≤ cap then (true, amountCalc1, amountField1)
        else if config.mode = .exact then
          let newAmount := (cap - otbQuote - tbb.tbbQuote) / op.price
          if newAmount > 0 then (true, newAmount, roundToPrec newAmount 7)
          else (false, amountCalc1, amountField1)
        else (false, amountCalc1, amountField1)
    let keepSellingQuote := resQuote.1
    let amountCalc2 := resQuote.2.1
    let amountField2 := resQuote.2.2
    if keepSellingBase ∧ keepSellingQuote then
      .ok (some { op with amount := amountField2 },
           { tbbBase := tbb.tbbBase + amountCalc2,
             tbbQuote := tbb.tbbQuote + amountCalc2 * op.price })
    else
      .ok (none, tbb)
  else
    -- TODO buying side (source fall-through): return the dropped command
    .ok (none, tbb)

/-- The daily volume row the filter's database query returns. -/
structure DailyVolume where
  baseVol : ℚ
  quoteVol : ℚ
deriving DecidableEq, Repr

/-- Modelled from the spec: `filterOps` — applies the per-operation filter
function to each candidate operation in order, threading the running
to-be-booked state, keeping the operations for which the function returns a
value and dropping those for which it returns the nil "dropped" marker. -/
def filterOps (f : DailyTBB → SellOp → Except String (Option SellOp × DailyTBB)) :
    List SellOp → DailyTBB → Except String (List SellOp)
  | [], _ => .ok []
  | op :: rest, tbb =>
    match f tbb op with
    | .error e => .error e
    | .ok (none, tbb') => filterOps f rest tbb'
    | .ok (some op', tbb') =>
      match filterOps f rest tbb' with
      | .error e => .error e
      | .ok kept => .ok (op' :: kept)

/-- `volumeFilter.Apply`: queries today's realized daily volume (the
on-the-books totals, supplied here as the query's result), starts the
to-be-booked totals at zero and filters the candidate operations. -/
def volumeFilterApply (baseAsset quoteAsset : String) (config : VolumeFilterConfig)
    (queryResult : Except String DailyVolume) (ops : List SellOp) :
    Except String (List SellOp) := do
  let dailyValues ← queryResult
  filterOps
    (volumeFilterFn baseAsset quoteAsset config dailyValues.baseVol dailyValues.quoteVol)
    ops ⟨0, 0⟩

/-! ## Mirror strategy reconciler (`mirrorStrategy.go`) -/

/-- A live `horizon.Offer` as the reconciler reads it: selling/buying assets,
and the parsed price and amount strings. -/
structure Offer where
  offerID : ℕ
  selling : String
  buying : String
  price : ℚ
  amount : ℚ
deriving DecidableEq, Repr

/-- A target `model.Order` as the reconciler reads it. -/
structure Order where
  price : Number
  volume : Number
deriving DecidableEq, Repr

/-- Payload of a venue `build.ManageOfferBuilder` (modify/create operation). -/
abbrev ManageOp := ℕ

/-- A transaction mutator emitted by the reconciler: either a modify/create
operation built by the venue client, or a delete of a live offer
(`sdex.DeleteOffer`). -/
inductive Op where
  | manage (mo : ManageOp)
  | delete (offer : Offer)
deriving DecidableEq, Repr

/-- One entry of the capital Liability Tracker: selling asset, buying asset,
selling amount, buying amount, incremental native amount. -/
structure LiabilityEntry where
  sellingAsset : String
  buyingAsset : String
  sellingAmount : ℚ
  buyingAmount : ℚ
  incrementalNativeAmountRaw : ℚ
deriving DecidableEq, Repr

/-- The Liability Tracker's state for one reconciliation pass: the list of
`AddLiabilities` calls recorded so far. -/
abbrev Liabilities := List LiabilityEntry

/-- `sdex.AddLiabilities`: records committed capital; it never rejects. -/
def addLiabilities (L : Liabilities) (sellingAsset buyingAsset : String)
    (sellingAmount buyingAmount incrementalNativeAmountRaw : ℚ) : Liabilities :=
  L ++ [⟨sellingAsset, buyingAsset, sellingAmount, buyingAmount, incrementalNativeAmountRaw⟩]

/-- The static fields of `mirrorStrategy` that the reconciler reads, with the
outputs of the two `ComputeIncrementalNativeAmountRaw` venue calls supplied as
values. -/
structure MirrorStrategy where
  baseAsset : String
  quoteAsset : String
  primaryPricePrecision : ℕ
  primaryVolumePrecision : ℕ
  backingMinBaseVolume : Number
  backingPricePrecision : ℕ
  backingVolumePrecision : ℕ
  volumeDivideBy : ℚ
  perLevelSpread : ℚ
  incRawCreate : ℚ
  incRawModify : ℚ

/-- The venue's modify-offer call: may fail, may return the nil "abandon this
operation" signal, or return an operation. -/
abbrev ModifyOfferFn := Offer → ℚ → ℚ → ℚ → Except String (Option ManageOp)

/-- The venue's create-offer call. -/
abbrev CreateOfferFn := ℚ → ℚ → ℚ → Except String (Option ManageOp)

/-- The new order's price scaled by the per-level multiplier
(`newOrder.Price.Scale(priceMultiplier)`). -/
def scaledPrice (newOrder : Order) (priceMultiplier : ℚ) : Number :=
  newOrder.price.scale priceMultiplier

/-- The new order's volume scaled by `1 / volumeDivideBy`
(`newOrder.Volume.Scale(1.0 / s.volumeDivideBy)`). -/
def scaledVol (s : MirrorStrategy) (newOrder : Order) : Number :=
  newOrder.volume.scale (1 / s.volumeDivideBy)

/-- The live offer's price after parsing at the primary venue's price
precision, inverted for the buy-side comparison hack. -/
def effectiveOldPrice (s : MirrorStrategy) (oldOffer : Offer) (hack : Bool) : Number :=
  let oldPrice := numberFromFloat oldOffer.price s.primaryPricePrecision
  if hack then oldPrice.invert else oldPrice

/-- The live offer's volume after parsing at the primary venue's volume
precision, multiplied by the original price for the buy-side hack. -/
def effectiveOldVol (s : MirrorStrategy) (oldOffer : Offer) (hack : Bool) : Number :=
  let oldPrice := numberFromFloat oldOffer.price s.primaryPricePrecision
  let oldVol := numberFromFloat oldOffer.amount s.primaryVolumePrecision
  if hack then oldVol.mul oldPrice else oldVol

/-- The epsilon tolerance used by the reconciler's change check. -/
def reconcileEpsilon : ℚ := 1 / 10000

/-- The reconciler's unchanged-pair check (`sameOrderParams`): price and
volume of the live offer are epsilon-equal to the target's, after normalizing
precision and, for buy-side offers, inverting to the sell-equivalent
representation. -/
def sameOrderParams (s : MirrorStrategy) (oldOffer : Offer) (newOrder : Order)
    (priceMultiplier : ℚ) (hack : Bool) : Bool :=
  (effectiveOldPrice s oldOffer hack).equalsPrecisionNormalized
      (scaledPrice newOrder priceMultiplier) reconcileEpsilon
    && (effectiveOldVol s oldOffer hack).equalsPrecisionNormalized
      (scaledVol s newOrder) reconcileEpsilon

/-- Target price converted to the primary venue's precision
(`model.NumberByCappingPrecision(price, PricePrecision)`). -/
def offerPriceCapped (s : MirrorStrategy) (newOrder : Order) (priceMultiplier : ℚ) : Number :=
  numberByCappingPrecision (scaledPrice newOrder priceMultiplier) s.primaryPricePrecision

/-- Target volume converted to the primary venue's precision
(`model.NumberByCappingPrecision(vol, VolumePrecision)`). -/
def offerAmountCapped (s : MirrorStrategy) (newOrder : Order) : Number :=
  numberByCappingPrecision (scaledVol s newOrder) s.primaryVolumePrecision

/-- The liability entry recorded when an unchanged live offer is kept. -/
def keepLiabilityEntry (s : MirrorStrategy) (oldOffer : Offer) (hack : Bool) : LiabilityEntry :=
  let oldPrice := effectiveOldPrice s oldOffer hack
  let oldVol := effectiveOldVol s oldOffer hack
  if hack then
    ⟨oldOffer.selling, oldOffer.buying, (oldVol.mul oldPrice).val, oldVol.val, s.incRawModify⟩
  else
    ⟨oldOffer.selling, oldOffer.buying, oldVol.val, (oldVol.mul oldPrice).val, s.incRawModify⟩

/-- The liability entry recorded when a changed live offer is modified. -/
def modifyLiabilityEntry (s : MirrorStrategy) (oldOffer : Offer) (newOrder : Order)
    (priceMultiplier : ℚ) (hack : Bool) : LiabilityEntry :=
  let offerPrice := offerPriceCapped s newOrder priceMultiplier
  let offerAmount := offerAmountCapped s newOrder
  if hack then
    ⟨oldOffer.selling, oldOffer.buying, (offerAmount.mul offerPrice).val, offerAmount.val,
      s.incRawModify⟩
  else
    ⟨oldOffer.selling, oldOffer.buying, offerAmount.val, (offerAmount.mul offerPrice).val,
      s.incRawModify⟩

/-- `mirrorStrategy.doModifyOffer`: decides, for one (live offer, target
order) pair, whether to keep the offer (no operation, capital recorded),
modify it, or delete it.  Returns the optional modify operation, the optional
delete operation, and the updated Liability Tracker state. -/
def doModifyOffer (s : MirrorStrategy) (modifyOffer : ModifyOfferFn)
    (oldOffer : Offer) (newOrder : Order) (priceMultiplier : ℚ) (hack : Bool)
    (L : Liabilities) : Except String (Option Op × Option Op × Liabilities) :=
  if sameOrderParams s oldOffer newOrder priceMultiplier hack then
    let entry := keepLiabilityEntry s oldOffer hack
    .ok (none, none, L ++ [entry])
  else
    let offerPrice := offerPriceCapped s newOrder priceMultiplier
    let offerAmount := offerAmountCapped s newOrder
    if offerAmount.val < s.backingMinBaseVolume.val then
      .ok (none, some (Op.delete oldOffer), L)
    else
      match modifyOffer oldOffer offerPrice.val offerAmount.val s.incRawModify with
      | .error e => .error e
      | .ok (some mo) =>
        let entry := modifyLiabilityEntry s oldOffer newOrder priceMultiplier hack
        .ok (some (Op.manage mo), none, L ++ [entry])
      | .ok none =>
        -- a nil modify-offer result degrades to a delete
        .ok (none, some (Op.delete oldOffer), L)

/-- The paired-offer loop of `updateLevels`: processes each (live offer,
target order) pair, accumulating modify operations, delete operations and the
Liability Tracker state. -/
def processPairs (s : MirrorStrategy) (modifyOffer : ModifyOfferFn)
    (priceMultiplier : ℚ) (hack : Bool) :
    List (Offer × Order) → List Op → List Op → Liabilities →
    Except String (List Op × List Op × Liabilities)
  | [], ops, deleteOps, L => .ok (ops, deleteOps, L)
  | pair :: rest, ops, deleteOps, L =>
    match doModifyOffer s modifyOffer pair.1 pair.2 priceMultiplier hack L with
    | .error e => .error e
    | .ok (modifyOp, deleteOp, L') =>
      processPairs s modifyOffer priceMultiplier hack rest
        (ops ++ modifyOp.toList) (deleteOps ++ deleteOp.toList) L'

/-- The surplus-creation loop of `updateLevels`: creates offers for the
target orders beyond the live offers, skipping any below the backing venue's
minimum volume and recording capital for each created offer. -/
def createRemaining (s : MirrorStrategy) (createOffer : CreateOfferFn) (hack : Bool)
    (priceMultiplier : ℚ) :
    List Order → List Op → Liabilities → Except String (List Op × Liabilities)
  | [], ops, L => .ok (ops, L)
  | newOrder :: rest, ops, L =>
    let price := (scaledPrice newOrder priceMultiplier).val
    let vol := (scaledVol s newOrder).val
    if vol < s.backingMinBaseVolume.val then
      -- skip level creation, below minBaseVolume of backing exchange
      createRemaining s createOffer hack priceMultiplier rest ops L
    else
      match createOffer price vol s.incRawCreate with
      | .error e => .error e
      | .ok (some mo) =>
        let L' :=
          if hack then addLiabilities L s.quoteAsset s.baseAsset (vol * price) vol s.incRawCreate
          else addLiabilities L s.baseAsset s.quoteAsset vol (vol * price) s.incRawCreate
        createRemaining s createOffer hack priceMultiplier rest (ops ++ [Op.manage mo]) L'
      | .ok none => createRemaining s createOffer hack priceMultiplier rest ops L

/-- `mirrorStrategy.updateLevels`: reconciles one side's live offers against
the target orders, then prepends the delete operations so deletions execute
first within the side's operation list. -/
def updateLevels (s : MirrorStrategy) (modifyOffer : ModifyOfferFn)
    (createOffer : CreateOfferFn) (oldOffers : List Offer) (newOrders : List Order)
    (priceMultiplier : ℚ) (hack : Bool) (L : Liabilities) :
    Except String (List Op × Liabilities) :=
  match processPairs s modifyOffer priceMultiplier hack (oldOffers.zip newOrders) [] [] L with
  | .error e => .error e
  | .ok (ops, deleteOps, L1) =>
    if newOrders.length ≥ oldOffers.length then
      match createRemaining s createOffer hack priceMultiplier
          (newOrders.drop oldOffers.length) ops L1 with
      | .error e => .error e
      | .ok (ops2, L2) => .ok (deleteOps ++ ops2, L2)
    else
      let deleteOps2 := deleteOps ++ (oldOffers.drop newOrders.length).map Op.delete
      .ok (deleteOps2 ++ ops, L1)

/-- `mirrorStrategy.UpdateWithOps`: reconciles both sides against the backing
orderbook (bids for buys, asks for sells, each capped at 50) and concatenates
the two sides' operation lists, sell side first when the books cross. -/
def updateWithOps (s : MirrorStrategy)
    (modifyBuyOffer : ModifyOfferFn) (createBuyOffer : CreateOfferFn)
    (modifySellOffer : ModifyOfferFn) (createSellOffer : CreateOfferFn)
    (bids asks : List Order) (buyingAOffers sellingAOffers : List Offer)
    (L : Liabilities) : Except String (List Op × Liabilities) :=
  let bids50 := bids.take 50
  let asks50 := asks.take 50
  match updateLevels s modifyBuyOffer createBuyOffer buyingAOffers bids50
      (1 - s.perLevelSpread) true L with
  | .error e => .error e
  | .ok (buyOps, L1) =>
    match updateLevels s modifySellOffer createSellOffer sellingAOffers asks50
        (1 + s.perLevelSpread) false L1 with
    | .error e => .error e
    | .ok (sellOps, L2) =>
      let crossed : Bool :=
        match bids, sellingAOffers with
        | topBid :: _, topSellOffer :: _ => decide (topBid.price.val ≥ topSellOffer.price)
        | _, _ => false
      if crossed then .ok (sellOps ++ buyOps, L2)
      else .ok (buyOps ++ sellOps, L2)

/-! ## Fill-offset surplus tracker (`mirrorStrategy.go`, offset-trades path) -/

/-- `model.OrderAction`. -/
inductive OrderAction where
  | buy
  | sell
deriving DecidableEq, Repr

/-- `OrderAction.Reverse`. -/
def OrderAction.reverse : OrderAction → OrderAction
  | .buy => .sell
  | .sell => .buy

/-- `assetSurplus`: units of the base asset pending to be offset on the
backing exchange, and the units already committed to an in-flight hedge. -/
structure AssetSurplus where
  total : Number
  committed : Number
deriving DecidableEq, Repr

/-- The `baseSurplus` map, one surplus record per order direction. -/
structure BaseSurplus where
  buySide : AssetSurplus
  sellSide : AssetSurplus
deriving DecidableEq, Repr

/-- Reads the surplus record for one order direction. -/
def BaseSurplus.get (m : BaseSurplus) : OrderAction → AssetSurplus
  | .buy => m.buySide
  | .sell => m.sellSide

/-- Replaces the surplus record for one order direction. -/
def BaseSurplus.set (m : BaseSurplus) : OrderAction → AssetSurplus → BaseSurplus
  | .buy, sp => { m with buySide := sp }
  | .sell, sp => { m with sellSide := sp }

/-- A `model.Trade` fill event as the handler reads it. -/
structure Trade where
  orderAction : OrderAction
  price : Number
  volume : Number
deriving DecidableEq, Repr

/-- The order submitted to the backing exchange to offset a fill. -/
structure OffsetOrder where
  orderAction : OrderAction
  price : Number
  volume : Number
deriving DecidableEq, Repr

/-- The backing venue's `AddOrder` call: may fail, may return a nil
transaction identifier, or return an identifier. -/
abbrev AddOrderFn := OffsetOrder → Except String (Option ℕ)

/-- `mirrorStrategy.baseVolumeToOffset`: from the uncommitted surplus
(`total − committed`) and the backing venue's minimum base volume, decides
the hedge order's volume: below half the minimum, skip; above the minimum,
offset the full uncommitted amount; otherwise offset exactly the minimum,
accepting a temporary deficit.  The chosen volume is capped at the backing
venue's volume precision. -/
def baseVolumeToOffset (s : MirrorStrategy) (surplus : AssetSurplus) : Option Number :=
  let uncommittedBase := surplus.total.sub surplus.committed
  if uncommittedBase.val < (s.backingMinBaseVolume.scale (1 / 2)).val then
    none
  else if uncommittedBase.val > s.backingMinBaseVolume.val then
    some (numberByCappingPrecision uncommittedBase s.backingVolumePrecision)
  else
    some (numberByCappingPrecision s.backingMinBaseVolume s.backingVolumePrecision)

/-- A surplus record with the incoming trade's volume added to `total`. -/
def bumpTotal (sp : AssetSurplus) (volume : Number) : AssetSurplus :=
  { sp with total := sp.total.add volume }

/-- The hedge order constructed by `HandleFill` for a chosen offset volume. -/
def offsetOrder (s : MirrorStrategy) (newOrderAction : OrderAction) (trade : Trade)
    (newVolume : Number) : OffsetOrder :=
  { orderAction := newOrderAction,
    price := numberByCappingPrecision trade.price s.backingPricePrecision,
    volume := newVolume }

/-- `mirrorStrategy.HandleFill`: under the fill mutex, adds the filled volume
to the reversed direction's pending total, computes the offsettable volume,
commits it, submits the hedge order, and only on success subtracts the
offset volume from both `total` and `committed`.  Returns the call's outcome
and the `baseSurplus` state after the call. -/
def handleFill (s : MirrorStrategy) (addOrder : AddOrderFn) (m : BaseSurplus)
    (trade : Trade) : Except String Unit × BaseSurplus :=
  let newOrderAction := trade.orderAction.reverse
  let sp1 := bumpTotal (m.get newOrderAction) trade.volume
  match baseVolumeToOffset s sp1 with
  | none => (.ok (), m.set newOrderAction sp1)
  | some newVolume =>
    -- commit the volume being used so the next handler does not double-count it
    let sp2 := { sp1 with committed := sp1.committed.add newVolume }
    let newOrder := offsetOrder s newOrderAction trade newVolume
    match addOrder newOrder with
    | .error e =>
      (.error ("error when offsetting trade: " ++ e), m.set newOrderAction sp2)
    | .ok none =>
      (.error "error when offsetting trade: transactionID was <nil>", m.set newOrderAction sp2)
    | .ok (some _) =>
      let sp3 : AssetSurplus :=
        { total := sp2.total.sub newVolume, committed := sp2.committed.sub newVolume }
      (.ok (), m.set newOrderAction sp3)

/-! ## TWAP bucket scheduler (`sellTwapLevelProvider.go`) -/

/-- Seconds in an hour and in a day (`secondsInHour`, `secondsInDay`). -/
def secondsInHour : ℤ := 60 * 60

/-- Seconds in a day. -/
def secondsInDay : ℤ := 24 * secondsInHour

/-- The static configuration fields of `sellTwapLevelProvider`. -/
structure TwapParams where
  numHoursToSell : ℤ
  parentBucketSizeSeconds : ℤ
  distributeSurplusOverRemainingIntervalsPercentCeiling : ℚ
  exponentialSmoothingFactor : ℚ
  minChildOrderSizePercentOfParent : ℚ
  pricePrecision : ℕ
  volumePrecision : ℕ

/-- `bucketInfo`, static and dynamic values flattened into one record. -/
structure BucketInfo where
  id : ℤ
  startTime : ℤ
  endTime : ℤ
  totalBuckets : ℤ
  totalBucketsTargeted : ℤ
  dayBaseSoldStart : ℚ
  dayBaseCapacity : ℚ
  baseSurplusIncluded : ℚ
  baseCapacity : ℚ
  minOrderSizeBase : ℚ
  isNew : Bool
  roundId : ℕ
  dayBaseSold : ℚ
  baseSold : ℚ
deriving DecidableEq, Repr

/-- `bucketInfo.baseRemaining`. -/
def BucketInfo.baseRemaining (b : BucketInfo) : ℚ := b.baseCapacity - b.baseSold

/-- The scheduler's persistent state: the active bucket and the previous
round identifier (both initially unset). -/
structure TwapState where
  activeBucket : Option BucketInfo
  previousRoundID : Option ℕ
deriving DecidableEq, Repr

/-- The external collaborators' responses consumed by one scheduling call:
the clock, the volume filter's day capacity and daily-volume query, the price
feed, the seeded random draw in [0,1), and the configured rate offset. -/
structure TwapInputs where
  nowUnix : ℤ
  dayStartUnix : ℤ
  dayBaseCapacityResult : Except String ℚ
  dailyValuesResult : Except String DailyVolume
  priceResult : Except String ℚ
  randomUnit : ℚ
  offsetApply : ℚ → ℚ

/-- One price/amount level returned to the strategy. -/
structure Level where
  price : ℚ
  amount : ℚ
deriving DecidableEq, Repr

/-- `makeFirstBucketFrame`: a fresh bucket frame with capacity = day capacity
divided by the number of buckets targeted for the selling window, the
day-sold baseline pulled from the daily-volume query, and no surplus. -/
def makeFirstBucketFrame (P : TwapParams) (inp : TwapInputs) (startTime : ℤ)
    (bID : ℤ) (rID : ℕ) : Except String BucketInfo := do
  let endTime := inp.dayStartUnix + secondsInDay
  let totalBuckets : ℤ := ⌈((endTime - startTime : ℤ) : ℚ) / (P.parentBucketSizeSeconds : ℚ)⌉
  let totalBucketsTargeted : ℤ :=
    ⌈((P.numHoursToSell * secondsInHour : ℤ) : ℚ) / (P.parentBucketSizeSeconds : ℚ)⌉
  let dayBaseCapacity ← inp.dayBaseCapacityResult
  let dailyVolumeValues ← inp.dailyValuesResult
  let dayBaseSoldStart := dailyVolumeValues.baseVol
  let baseCapacity := dayBaseCapacity / (totalBucketsTargeted : ℚ)
  .ok { id := bID
        startTime := startTime
        endTime := endTime
        totalBuckets := totalBuckets
        totalBucketsTargeted := totalBucketsTargeted
        dayBaseSoldStart := dayBaseSoldStart
        dayBaseCapacity := dayBaseCapacity
        baseSurplusIncluded := 0
        baseCapacity := baseCapacity
        minOrderSizeBase := P.minChildOrderSizePercentOfParent * baseCapacity
        isNew := true
        roundId := rID
        dayBaseSold := dayBaseSoldStart
        baseSold := 0 }

/-- `updateExistingBucket`: refreshes only the dynamic sold totals from the
daily-volume query; static capacity fields carry over unchanged. -/
def updateExistingBucket (inp : TwapInputs) (active : BucketInfo) (rID : ℕ) :
    Except String BucketInfo := do
  let dailyVolumeValues ← inp.dailyValuesResult
  let dayBaseSold := dailyVolumeValues.baseVol
  .ok { active with isNew := false
                    roundId := rID
                    dayBaseSold := dayBaseSold
                    baseSold := dayBaseSold - active.dayBaseSoldStart }

/-- The decay horizon `n = ceil(distribution-ceiling-fraction ×
remaining-buckets)` of the surplus redistribution. -/
def surplusHorizon (P : TwapParams) (totalRemainingBuckets : ℤ) : ℕ :=
  (⌈P.distributeSurplusOverRemainingIntervalsPercentCeiling *
      (totalRemainingBuckets : ℚ)⌉).toNat

/-- `firstDistributionOfBaseSurplus`: the geometric-series first term
`a = S × (r − 1) / (r^n − 1)` with `n = ceil(ceilingFraction ×
totalRemainingBuckets)`. -/
def firstDistributionOfBaseSurplus (P : TwapParams) (totalSurplus : ℚ)
    (totalRemainingBuckets : ℤ) : ℚ :=
  let r := P.exponentialSmoothingFactor
  let n : ℕ := surplusHorizon P totalRemainingBuckets
  totalSurplus * (r - 1) / (r ^ n - 1)

/-- `cutoverToNewBucket`: hard error unless the new bucket index is exactly
one more than the previous bucket's; otherwise recomputes a fresh bucket
frame and folds forward the accumulated surplus using the geometric
distribution. -/
def cutoverToNewBucket (P : TwapParams) (inp : TwapInputs) (active : BucketInfo)
    (startTime : ℤ) (bID : ℤ) (rID : ℕ) : Except String BucketInfo :=
  if bID ≠ active.id + 1 then
    .error "new bucketID was not one more than the previous bucketID"
  else
    match makeFirstBucketFrame P inp startTime bID rID with
    | .error e => .error ("unable to make first bucket frame when cutting over: " ++ e)
    | .ok bucket =>
      let thisBucketDayBaseSoldStart := active.dayBaseSold
      let thisBucketDayBaseSold := bucket.dayBaseSoldStart
      let bucket1 :=
        { bucket with dayBaseSoldStart := thisBucketDayBaseSoldStart
                      isNew := true
                      roundId := rID
                      dayBaseSold := thisBucketDayBaseSold
                      baseSold := thisBucketDayBaseSold - thisBucketDayBaseSoldStart }
      let averageBaseCapacity := bucket1.baseCapacity
      let numPreviousBuckets := bID
      let expectedSold := averageBaseCapacity * (numPreviousBuckets : ℚ)
      let totalSurplus := expectedSold - thisBucketDayBaseSoldStart
      let totalRemainingBuckets := bucket1.totalBuckets - numPreviousBuckets
      let inc := firstDistributionOfBaseSurplus P totalSurplus totalRemainingBuckets
      .ok { bucket1 with baseSurplusIncluded := inc
                         baseCapacity := averageBaseCapacity + inc }

/-- The bucket index computed at the start of each scheduling call:
elapsed seconds in the day divided by the bucket duration. -/
def computedBucketID (P : TwapParams) (inp : TwapInputs) : ℤ :=
  (inp.nowUnix - inp.dayStartUnix) / P.parentBucketSizeSeconds

/-- `makeBucketInfo`: selects the first-bucket, same-bucket or new-bucket
transition by comparing the just-computed bucket index to the previously
active bucket. -/
def makeBucketInfo (P : TwapParams) (st : TwapState) (inp : TwapInputs) (rID : ℕ) :
    Except String BucketInfo :=
  let startTime := inp.dayStartUnix
  let bID := computedBucketID P inp
  match st.activeBucket with
  | none =>
    match makeFirstBucketFrame P inp startTime bID rID with
    | .error e => .error ("could not make first bucket: " ++ e)
    | .ok bucket => .ok bucket
  | some active =>
    if bID = active.id then
      match updateExistingBucket inp active rID with
      | .error e => .error ("could not update existing bucket: " ++ e)
      | .ok bucket => .ok bucket
    else
      cutoverToNewBucket P inp active startTime bID rID

/-- `makeRoundID`: 0 on the first call, otherwise previous + 1. -/
def makeRoundID (st : TwapState) : ℕ :=
  match st.previousRoundID with
  | none => 0
  | some r => r + 1

/-- `roundInfo`, as far as the level computation reads it. -/
structure RoundInfo where
  id : ℕ
  bucketId : ℤ
  sizeBaseCapped : ℚ
  price : ℚ
deriving DecidableEq, Repr

/-- `makeRoundInfo`: if the remaining bucket capacity is at most the minimum
child-order size, sell exactly the remainder; otherwise draw a size between
the minimum and the remaining capacity using the seeded random unit.  The
price comes from the external feed, adjusted by the configured offset. -/
def makeRoundInfo (inp : TwapInputs) (rID : ℕ) (bucket : BucketInfo) :
    Except String RoundInfo := do
  let sizeBaseCapped : ℚ :=
    if bucket.baseRemaining ≤ bucket.minOrderSizeBase then bucket.baseRemaining
    else bucket.minOrderSizeBase + inp.randomUnit * (bucket.baseRemaining - bucket.minOrderSizeBase)
  match inp.priceResult with
  | .error e => .error ("could not get price from feed: " ++ e)
  | .ok price =>
    .ok { id := rID
          bucketId := bucket.id
          sizeBaseCapped := sizeBaseCapped
          price := inp.offsetApply price }

/-- `sellTwapLevelProvider.GetLevels`: computes the round identifier, the
bucket and the round; only when both succeed does it save the bucket and
round identifier into the provider's state and return the single level. -/
def getLevels (P : TwapParams) (st : TwapState) (inp : TwapInputs) :
    TwapState × Except String (List Level) :=
  let rID := makeRoundID st
  match makeBucketInfo P st inp rID with
  | .error e => (st, .error ("unable to make bucketInfo: " ++ e))
  | .ok bucket =>
    match makeRoundInfo inp rID bucket with
    | .error e => (st, .error ("unable to make roundInfo: " ++ e))
    | .ok round =>
      ({ activeBucket := some bucket, previousRoundID := some round.id },
       .ok [{ price := roundToPrec round.price P.pricePrecision,
              amount := roundToPrec round.sizeBaseCapped P.volumePrecision }])

/-- `true` exactly when an `Except` result is a success. -/
def exceptIsOk {ε α : Type} : Except ε α → Bool
  | .ok _ => true
  | .error _ => false

/-- `true` exactly when the venue's add-order call failed or returned a nil
transaction identifier. -/
def isSubmitFailure : Except String (Option ℕ) → Bool
  | .ok (some _) => false
  | .ok none => true
  | .error _ => true

/-- Whether an emitted operation is a delete. -/
def isDeleteOp : Op → Bool
  | .delete _ => true
  | .manage _ => false

/-- `true` exactly when every delete operation in the list comes before every
modify/create operation: a (possibly empty) prefix of deletes followed by no
deletes at all. -/
def deletesFirst : List Op → Bool
  | [] => true
  | op :: rest =>
    if isDeleteOp op then deletesFirst rest
    else rest.all fun o => !isDeleteOp o

/-! ## Concrete instances used by witnesses and counterexamples -/

/-- A witness call for C2: the witness strategy (no spread, unit divisor,
zero backing minimum). -/
def strategyC2 : MirrorStrategy :=
  { baseAsset := "BASE", quoteAsset := "QUOTE", primaryPricePrecision := 7,
    primaryVolumePrecision := 7, backingMinBaseVolume := ⟨0, 7⟩,
    backingPricePrecision := 7, backingVolumePrecision := 7,
    volumeDivideBy := 1, perLevelSpread := 0, incRawCreate := 0, incRawModify := 0 }

/-- A live sell offer used by the C2 counterexample. -/
def offerC2 : Offer := ⟨1, "BASE", "QUOTE", 2, 3⟩

/-- A backing-exchange bid used by the C2 counterexample. -/
def bidC2 : Order := ⟨⟨1, 7⟩, ⟨1, 7⟩⟩

/-- Modify-offer stub for the C2 counterexample (never reached). -/
def modifyFnC2 : ModifyOfferFn := fun _ _ _ _ => .ok none

/-- Create-offer stub for the C2 counterexample: the venue accepts the
creation. -/
def createFnC2 : CreateOfferFn := fun _ _ _ => .ok (some 0)

/-- A strategy used by the C1 witness: two-decimal precisions, unit divisor. -/
def strategyC1 : MirrorStrategy :=
  { baseAsset := "BASE", quoteAsset := "QUOTE", primaryPricePrecision := 2,
    primaryVolumePrecision := 2, backingMinBaseVolume := ⟨1, 2⟩,
    backingPricePrecision := 2, backingVolumePrecision := 2,
    volumeDivideBy := 1, perLevelSpread := 0, incRawCreate := 0, incRawModify := 0 }

/-- A live sell offer at price 1, amount 10, used by the C1 witness. -/
def offerC1 : Offer := ⟨7, "BASE", "QUOTE", 1, 10⟩

/-- A target order equal to the live offer, used by the C1 witness. -/
def orderC1 : Order := ⟨⟨1, 2⟩, ⟨10, 2⟩⟩

/-- C8 witness strategy for the below-minimum branch (backing minimum 100). -/
def strategyC8a : MirrorStrategy :=
  { baseAsset := "BASE", quoteAsset := "QUOTE", primaryPricePrecision := 2,
    primaryVolumePrecision := 2, backingMinBaseVolume := ⟨100, 2⟩,
    backingPricePrecision := 2, backingVolumePrecision := 2,
    volumeDivideBy := 1, perLevelSpread := 0, incRawCreate := 0, incRawModify := 0 }

/-- C8 witness strategy for the modify branch (backing minimum 1). -/
def strategyC8b : MirrorStrategy :=
  { strategyC8a with backingMinBaseVolume := ⟨1, 2⟩ }

/-- A live sell offer at price 1, amount 10, used by the C8 witness. -/
def offerC8 : Offer := ⟨9, "BASE", "QUOTE", 1, 10⟩

/-- A target order at price 2 (beyond epsilon of the offer), volume 10. -/
def orderC8 : Order := ⟨⟨2, 2⟩, ⟨10, 2⟩⟩

/-- Modify-offer call for the C8 witness: the venue accepts the change. -/
def modifyFnC8 : ModifyOfferFn := fun _ _ _ _ => .ok (some 5)

/-- C9 strategy: backing minimum 1 (at five decimals) but backing volume
precision of just one decimal digit. -/
def strategyC9 : MirrorStrategy :=
  { baseAsset := "BASE", quoteAsset := "QUOTE", primaryPricePrecision := 7,
    primaryVolumePrecision := 7, backingMinBaseVolume := ⟨1, 5⟩,
    backingPricePrecision := 7, backingVolumePrecision := 1,
    volumeDivideBy := 1, perLevelSpread := 0, incRawCreate := 0, incRawModify := 0 }

/-- C5 strategy: backing minimum 1 at two decimals. -/
def strategyC5 : MirrorStrategy :=
  { baseAsset := "BASE", quoteAsset := "QUOTE", primaryPricePrecision := 2,
    primaryVolumePrecision := 2, backingMinBaseVolume := ⟨1, 2⟩,
    backingPricePrecision := 2, backingVolumePrecision := 2,
    volumeDivideBy := 1, perLevelSpread := 0, incRawCreate := 0, incRawModify := 0 }

/-- A fill of volume 1 at price 1 on the sell side, used by the C5 witness. -/
def tradeC5 : Trade := ⟨.sell, ⟨1, 2⟩, ⟨1, 2⟩⟩

/-- An empty surplus map, used by the C5 witness. -/
def surplusC5 : BaseSurplus := ⟨⟨⟨0, 2⟩, ⟨0, 2⟩⟩, ⟨⟨0, 2⟩, ⟨0, 2⟩⟩⟩

/-- A backing venue whose add-order call returns a nil transaction
identifier, used by the C5 witness. -/
def addOrderNilC5 : AddOrderFn := fun _ => .ok none

/-- A buy operation (selling the quote asset for the base asset), used by the
C6 counterexample and witness. -/
def buyOpC6 : SellOp := ⟨"QUOTE", "BASE", 1, 30⟩

/-- TWAP parameters used by the C4 counterexample and witness: smoothing
ratio 1/2, distribution ceiling 1 (the full remaining-bucket horizon). -/
def paramsC4 : TwapParams :=
  { numHoursToSell := 6, parentBucketSizeSeconds := 600,
    distributeSurplusOverRemainingIntervalsPercentCeiling := 1,
    exponentialSmoothingFactor := 1 / 2, minChildOrderSizePercentOfParent := 0,
    pricePrecision := 7, volumePrecision := 7 }

/-- TWAP parameters used by the C7 witness: one-second buckets. -/
def paramsC7 : TwapParams :=
  { numHoursToSell := 6, parentBucketSizeSeconds := 1,
    distributeSurplusOverRemainingIntervalsPercentCeiling := 1,
    exponentialSmoothingFactor := 1 / 2, minChildOrderSizePercentOfParent := 0,
    pricePrecision := 7, volumePrecision := 7 }

/-- An active bucket with index 1, used by the C7 witness. -/
def activeBucketC7 : BucketInfo :=
  { id := 1, startTime := 0, endTime := 86400, totalBuckets := 86400,
    totalBucketsTargeted := 21600, dayBaseSoldStart := 0, dayBaseCapacity := 100,
    baseSurplusIncluded := 0, baseCapacity := 100 / 21600, minOrderSizeBase := 0,
    isNew := false, roundId := 3, dayBaseSold := 0, baseSold := 0 }

/-- Scheduler state with the active bucket at index 1, used by the C7
witness. -/
def stateC7 : TwapState := ⟨some activeBucketC7, some 3⟩

/-- Collaborator responses at five seconds past midnight (bucket index 5),
used by the C7 witness. -/
def inputsC7 : TwapInputs :=
  { nowUnix := 5, dayStartUnix := 0, dayBaseCapacityResult := .ok 100,
    dailyValuesResult := .ok ⟨0, 0⟩, priceResult := .ok 1, randomUnit := 0,
    offsetApply := fun p => p }

/-- Fresh scheduler state, used by the C10 witness. -/
def stateC10 : TwapState := ⟨none, none⟩

/-- Collaborator responses whose daily-volume-capacity query fails, used by
the C10 witness. -/
def inputsC10 : TwapInputs :=
  { nowUnix := 5, dayStartUnix := 0, dayBaseCapacityResult := .error "db down",
    dailyValuesResult := .ok ⟨0, 0⟩, priceResult := .ok 1, randomUnit := 0,
    offsetApply := fun p => p }

/-! ## Supporting lemmas -/

theorem deletesFirst_append (dels ops : List Op)
    (hdels : dels.all isDeleteOp = true)
    (hops : ops.all (fun o => !isDeleteOp o) = true) :
    deletesFirst (dels ++ ops) = true := by
  induction dels with
  | nil =>
    cases ops with
    | nil => rfl
    | cons o rest =>
      simp only [List.all_cons, Bool.and_eq_true, Bool.not_eq_true'] at hops
      simp [deletesFirst, hops.1, hops.2]
  | cons d dels ih =>
    simp only [List.all_cons, Bool.and_eq_true] at hdels
    simp [deletesFirst, hdels.1, ih hdels.2]

/-- The per-pair decision never emits a delete in the modify slot nor a
modify in the delete slot. -/
theorem doModifyOffer_shape (s : MirrorStrategy) (modifyOffer : ModifyOfferFn)
    (oldOffer : Offer) (newOrder : Order) (priceMultiplier : ℚ) (hack : Bool)
    (L : Liabilities) (modifyOp deleteOp : Option Op) (L' : Liabilities)
    (h : doModifyOffer s modifyOffer oldOffer newOrder priceMultiplier hack L =
        .ok (modifyOp, deleteOp, L')) :
    modifyOp.toList.all (fun o => !isDeleteOp o) = true
      ∧ deleteOp.toList.all isDeleteOp = true := by
  unfold doModifyOffer at h
  by_cases hs : sameOrderParams s oldOffer newOrder priceMultiplier hack = true
  · rw [if_pos hs] at h
    cases h
    simp
  · rw [if_neg hs] at h
    dsimp only at h
    by_cases hlt : (offerAmountCapped s newOrder).val < s.backingMinBaseVolume.val
    · rw [if_pos hlt] at h
      cases h
      simp [isDeleteOp]
    · rw [if_neg hlt] at h
      cases hm : modifyOffer oldOffer (offerPriceCapped s newOrder priceMultiplier).val
          (offerAmountCapped s newOrder).val s.incRawModify with
      | error e => rw [hm] at h; cases h
      | ok mo =>
        rw [hm] at h
        cases mo with
        | none => cases h; simp [isDeleteOp]
        | some m => cases h; simp [isDeleteOp]

theorem processPairs_cons (s : MirrorStrategy) (modifyOffer : ModifyOfferFn)
    (priceMultiplier : ℚ) (hack : Bool) (pr : Offer × Order)
    (rest : List (Offer × Order)) (ops deleteOps : List Op) (L : Liabilities) :
    processPairs s modifyOffer priceMultiplier hack (pr :: rest) ops deleteOps L =
      match doModifyOffer s modifyOffer pr.1 pr.2 priceMultiplier hack L with
      | .error e => .error e
      | .ok (modifyOp, deleteOp, L') =>
        processPairs s modifyOffer priceMultiplier hack rest
          (ops ++ modifyOp.toList) (deleteOps ++ deleteOp.toList) L' := rfl

theorem processPairs_shape (s : MirrorStrategy) (modifyOffer : ModifyOfferFn)
    (priceMultiplier : ℚ) (hack : Bool) (pairs : List (Offer × Order)) :
    ∀ (ops deleteOps : List Op) (L : Liabilities) (ops' deleteOps' : List Op)
      (L' : Liabilities),
      processPairs s modifyOffer priceMultiplier hack pairs ops deleteOps L =
          .ok (ops', deleteOps', L') →
      ops.all (fun o => !isDeleteOp o) = true →
      deleteOps.all isDeleteOp = true →
      ops'.all (fun o => !isDeleteOp o) = true ∧ deleteOps'.all isDeleteOp = true := by
  induction pairs with
  | nil =>
    intro ops deleteOps L ops' deleteOps' L' h hops hdels
    cases h
    exact ⟨hops, hdels⟩
  | cons pr rest ih =>
    intro ops deleteOps L ops' deleteOps' L' h hops hdels
    rw [processPairs_cons] at h
    cases hd : doModifyOffer s modifyOffer pr.1 pr.2 priceMultiplier hack L with
    | error e => rw [hd] at h; cases h
    | ok res =>
      obtain ⟨mOp, dOp, L1⟩ := res
      rw [hd] at h
      have hshape := doModifyOffer_shape s modifyOffer pr.1 pr.2 priceMultiplier hack L
        mOp dOp L1 hd
      refine ih _ _ _ _ _ _ h ?_ ?_
      · simpa using And.intro hops hshape.1
      · simpa using And.intro hdels hshape.2

theorem createRemaining_shape (s : MirrorStrategy) (createOffer : CreateOfferFn)
    (hack : Bool) (priceMultiplier : ℚ) (orders : List Order) :
    ∀ (ops : List Op) (L : Liabilities) (ops' : List Op) (L' : Liabilities),
      createRemaining s createOffer hack priceMultiplier orders ops L = .ok (ops', L') →
      ops.all (fun o => !isDeleteOp o) = true →
      ops'.all (fun o => !isDeleteOp o) = true := by
  induction orders with
  | nil =>
    intro ops L ops' L' h hops
    cases h
    exact hops
  | cons ord rest ih =>
    intro ops L ops' L' h hops
    unfold createRemaining at h
    dsimp only at h
    by_cases hlt : (scaledVol s ord).val < s.backingMinBaseVolume.val
    · rw [if_pos hlt] at h
      exact ih _ _ _ _ h hops
    · rw [if_neg hlt] at h
      cases hc : createOffer (scaledPrice ord priceMultiplier).val (scaledVol s ord).val
          s.incRawCreate with
      | error e => rw [hc] at h; cases h
      | ok mo =>
        rw [hc] at h
        cases mo with
        | none => exact ih _ _ _ _ h hops
        | some m =>
          refine ih _ _ _ _ h ?_
          simpa [isDeleteOp] using hops

/-! ## C2: ordering of delete operations -/

/-- **C2 (amended)**: within each side's reconciliation (`updateLevels`), the
returned operation list is a prefix of delete operations followed only by
modify/create operations — deletions execute first so the capital they
release is available for the new operations.  (The full `UpdateWithOps`
list concatenates the buy-side and sell-side lists, so the ordering holds
per side, not across sides; see the counterexample.) -/
theorem updateLevels_deletes_before_modifies_C2 (s : MirrorStrategy)
    (modifyOffer : ModifyOfferFn) (createOffer : CreateOfferFn)
    (oldOffers : List Offer) (newOrders : List Order) (priceMultiplier : ℚ)
    (hack : Bool) (L : Liabilities) (allOps : List Op) (L' : Liabilities)
    (h : updateLevels s modifyOffer createOffer oldOffers newOrders priceMultiplier
        hack L = .ok (allOps, L')) :
    deletesFirst allOps = true := by
  unfold updateLevels at h
  cases hp : processPairs s modifyOffer priceMultiplier hack (oldOffers.zip newOrders)
      [] [] L with
  | error e => rw [hp] at h; cases h
  | ok res =>
    obtain ⟨ops1, dels1, L1⟩ := res
    rw [hp] at h
    dsimp only at h
    have hshape := processPairs_shape s modifyOffer priceMultiplier hack
      (oldOffers.zip newOrders) [] [] L ops1 dels1 L1 hp (by simp) (by simp)
    by_cases hlen : newOrders.length ≥ oldOffers.length
    · rw [if_pos hlen] at h
      cases hc : createRemaining s createOffer hack priceMultiplier
          (newOrders.drop oldOffers.length) ops1 L1 with
      | error e => rw [hc] at h; cases h
      | ok res2 =>
        obtain ⟨ops2, L2⟩ := res2
        rw [hc] at h
        cases h
        exact deletesFirst_append _ _ hshape.2
          (createRemaining_shape s createOffer hack priceMultiplier
            (newOrders.drop oldOffers.length) ops1 L1 ops2 L' hc hshape.1)
    · rw [if_neg hlen] at h
      cases h
      refine deletesFirst_append _ _ ?_ hshape.1
      simp only [List.all_append, Bool.and_eq_true]
      refine ⟨hshape.2, ?_⟩
      simp only [List.all_eq_true]
      intro x hx
      obtain ⟨o, -, rfl⟩ := List.mem_map.mp hx
      rfl

/-- **C2 (counterexample)**: with one new buy level (a create operation) and
one stale sell offer (a delete operation), the full reconciliation pass
returns the buy-side operations before the sell-side ones, so the create
operation precedes the delete operation — delete operations are *not* all
ordered before modify/create operations in the returned list. -/
theorem updateWithOps_interleaves_deletes_C2_cex :
    updateWithOps strategyC2 modifyFnC2 createFnC2 modifyFnC2 createFnC2
        [bidC2] [] [] [offerC2] [] =
      .ok ([Op.manage 0, Op.delete offerC2], [⟨"QUOTE", "BASE", 1, 1, 0⟩]) ∧
    deletesFirst [Op.manage 0, Op.delete offerC2] = false := by
  constructor
  · have hvol : (scaledVol strategyC2 bidC2).val = 1 := by
      norm_num [scaledVol, Number.scale, numberFromFloat, roundToPrec, round_eq,
        strategyC2, bidC2]
    have hprice : (scaledPrice bidC2 (1 - strategyC2.perLevelSpread)).val = 1 := by
      norm_num [scaledPrice, Number.scale, numberFromFloat, roundToPrec, round_eq,
        strategyC2, bidC2]
    have hmin : strategyC2.backingMinBaseVolume.val = 0 := by
      norm_num [strategyC2]
    have hc : createRemaining strategyC2 createFnC2 true (1 - strategyC2.perLevelSpread)
        [bidC2] [] [] = .ok ([Op.manage 0], [⟨"QUOTE", "BASE", 1, 1, 0⟩]) := by
      unfold createRemaining
      dsimp only
      rw [if_neg (by rw [hvol, hmin]; norm_num)]
      show (match createFnC2 (scaledPrice bidC2 (1 - strategyC2.perLevelSpread)).val
          (scaledVol strategyC2 bidC2).val strategyC2.incRawCreate with
        | Except.error e => Except.error e
        | Except.ok (some mo) =>
          createRemaining strategyC2 createFnC2 true (1 - strategyC2.perLevelSpread) []
            ([] ++ [Op.manage mo])
            (addLiabilities [] strategyC2.quoteAsset strategyC2.baseAsset
              ((scaledVol strategyC2 bidC2).val *
                (scaledPrice bidC2 (1 - strategyC2.perLevelSpread)).val)
              (scaledVol strategyC2 bidC2).val strategyC2.incRawCreate)
        | Except.ok none =>
          createRemaining strategyC2 createFnC2 true (1 - strategyC2.perLevelSpread)
            [] [] []) = _
      rw [hvol, hprice]
      norm_num [createFnC2, createRemaining, addLiabilities, strategyC2]
    have hbuy : updateLevels strategyC2 modifyFnC2 createFnC2 [] [bidC2]
        (1 - strategyC2.perLevelSpread) true [] =
        .ok ([Op.manage 0], [⟨"QUOTE", "BASE", 1, 1, 0⟩]) := by
      have hstep : updateLevels strategyC2 modifyFnC2 createFnC2 [] [bidC2]
          (1 - strategyC2.perLevelSpread) true [] =
          match createRemaining strategyC2 createFnC2 true (1 - strategyC2.perLevelSpread)
              [bidC2] [] [] with
          | .error e => .error e
          | .ok (ops2, L2) => .ok (ops2, L2) := rfl
      rw [hstep, hc]
    have hsell : updateLevels strategyC2 modifyFnC2 createFnC2 [offerC2] []
        (1 + strategyC2.perLevelSpread) false [⟨"QUOTE", "BASE", 1, 1, 0⟩] =
        .ok ([Op.delete offerC2], [⟨"QUOTE", "BASE", 1, 1, 0⟩]) := rfl
    have hcross : decide (bidC2.price.val ≥ (offerC2.price : ℚ)) = false := by
      apply decide_eq_false
      norm_num [bidC2, offerC2]
    unfold updateWithOps
    dsimp only
    rw [show List.take 50 [bidC2] = [bidC2] from rfl]
    rw [hbuy]
    dsimp only
    rw [show List.take 50 ([] : List Order) = ([] : List Order) from rfl]
    rw [hsell]
    dsimp only
    rw [hcross]
    rfl
  · rfl

/-- Witness for the amended C2 theorem at a concrete input. -/
theorem updateLevels_deletes_before_modifies_C2_witness :
    updateLevels strategyC2 modifyFnC2 createFnC2 [] [] 1 false [] =
        .ok ([], []) ∧
    deletesFirst [] = true := by
  have h : updateLevels strategyC2 modifyFnC2 createFnC2 [] [] 1 false [] =
      .ok ([], []) := rfl
  exact ⟨h, updateLevels_deletes_before_modifies_C2 strategyC2 modifyFnC2 createFnC2
    [] [] 1 false [] [] [] h⟩

/-! ## C1: unchanged pairs emit no operation and reserve capital -/

/-- **C1**: for a paired live offer and target order whose price and volume
are epsilon-equal (after normalizing precision and, for buy-side offers,
inverting to the canonical sell-equivalent representation), the reconciler
emits no operation for the pair — neither modify nor delete — and still
records the offer's capital into the Liability Tracker with the offer's
selling/buying amounts. -/
theorem doModifyOffer_unchanged_keeps_C1 (s : MirrorStrategy)
    (modifyOffer : ModifyOfferFn) (oldOffer : Offer) (newOrder : Order)
    (priceMultiplier : ℚ) (hack : Bool) (L : Liabilities)
    (hsame : sameOrderParams s oldOffer newOrder priceMultiplier hack = true) :
    doModifyOffer s modifyOffer oldOffer newOrder priceMultiplier hack L =
      .ok (none, none, L ++ [keepLiabilityEntry s oldOffer hack]) := by
  unfold doModifyOffer
  rw [if_pos hsame]

/-- Witness for C1 at a concrete epsilon-equal pair. -/
theorem doModifyOffer_unchanged_keeps_C1_witness :
    sameOrderParams strategyC1 offerC1 orderC1 1 false = true ∧
    doModifyOffer strategyC1 (fun _ _ _ _ => .ok none) offerC1 orderC1 1 false [] =
      .ok (none, none, [keepLiabilityEntry strategyC1 offerC1 false]) := by
  have hsame : sameOrderParams strategyC1 offerC1 orderC1 1 false = true := by
    norm_num [sameOrderParams, Number.equalsPrecisionNormalized, effectiveOldPrice,
      effectiveOldVol, scaledPrice, scaledVol, Number.scale, Number.mul, numberFromFloat,
      roundToPrec, round_eq, reconcileEpsilon, strategyC1, offerC1, orderC1]
  exact ⟨hsame, doModifyOffer_unchanged_keeps_C1 strategyC1 (fun _ _ _ _ => .ok none)
    offerC1 orderC1 1 false [] hsame⟩

/-! ## C3: volume filter, exact mode, base-unit cap -/

/-- **C3**: in `exact` mode with only a base-unit cap of 100 configured,
on-the-books daily base volume 80 and empty to-be-booked totals, a sell
order of size 30 is kept with its amount shrunk to exactly
20 = cap − on-the-books − to-be-booked, and the running to-be-booked base
total becomes 20 for the next order processed in the same call (the
to-be-booked quote total grows by 20 × price). -/
theorem volumeFilter_exact_shrinks_C3 (price otbQuote : ℚ) :
    volumeFilterFn "BASE" "QUOTE" ⟨some 100, none, .exact⟩ 80 otbQuote ⟨0, 0⟩
        ⟨"BASE", "QUOTE", price, 30⟩ =
      .ok (some ⟨"BASE", "QUOTE", price, 20⟩, ⟨20, 20 * price⟩) := by
  simp [volumeFilterFn, isSelling, Bind.bind, Except.bind]
  norm_num [roundToPrec, round_eq]

/-! ## C8: changed pairs — below-minimum deletes, otherwise modifies -/

/-- **C8**: when a paired offer's parameters differ beyond epsilon, then if
the target volume after precision conversion falls below the backing venue's
minimum tradable volume the reconciler emits a delete operation and no
modify operation; otherwise (the venue returning a modify operation) it
emits the modify operation and reserves its capital in the Liability
Tracker. -/
theorem doModifyOffer_changed_C8 (s : MirrorStrategy) (modifyOffer : ModifyOfferFn)
    (oldOffer : Offer) (newOrder : Order) (priceMultiplier : ℚ) (hack : Bool)
    (L : Liabilities)
    (hdiff : sameOrderParams s oldOffer newOrder priceMultiplier hack = false) :
    ((offerAmountCapped s newOrder).val < s.backingMinBaseVolume.val →
      doModifyOffer s modifyOffer oldOffer newOrder priceMultiplier hack L =
        .ok (none, some (Op.delete oldOffer), L)) ∧
    (∀ mo : ManageOp, ¬ (offerAmountCapped s newOrder).val < s.backingMinBaseVolume.val →
      modifyOffer oldOffer (offerPriceCapped s newOrder priceMultiplier).val
          (offerAmountCapped s newOrder).val s.incRawModify = .ok (some mo) →
      doModifyOffer s modifyOffer oldOffer newOrder priceMultiplier hack L =
        .ok (some (Op.manage mo), none,
          L ++ [modifyLiabilityEntry s oldOffer newOrder priceMultiplier hack])) := by
  constructor
  · intro hlt
    unfold doModifyOffer
    rw [if_neg (by simp [hdiff])]
    dsimp only
    rw [if_pos hlt]
  · intro mo hge hmod
    unfold doModifyOffer
    rw [if_neg (by simp [hdiff])]
    dsimp only
    rw [if_neg hge, hmod]

/-- Witness for C8, exercising both the delete branch (backing minimum 100)
and the modify branch (backing minimum 1). -/
theorem doModifyOffer_changed_C8_witness :
    (sameOrderParams strategyC8a offerC8 orderC8 1 false = false ∧
      (offerAmountCapped strategyC8a orderC8).val < strategyC8a.backingMinBaseVolume.val ∧
      doModifyOffer strategyC8a modifyFnC8 offerC8 orderC8 1 false [] =
        .ok (none, some (Op.delete offerC8), [])) ∧
    (sameOrderParams strategyC8b offerC8 orderC8 1 false = false ∧
      ¬ (offerAmountCapped strategyC8b orderC8).val < strategyC8b.backingMinBaseVolume.val ∧
      doModifyOffer strategyC8b modifyFnC8 offerC8 orderC8 1 false [] =
        .ok (some (Op.manage 5), none,
          [modifyLiabilityEntry strategyC8b offerC8 orderC8 1 false])) := by
  have hdiffa : sameOrderParams strategyC8a offerC8 orderC8 1 false = false := by
    norm_num [sameOrderParams, Number.equalsPrecisionNormalized, effectiveOldPrice,
      effectiveOldVol, scaledPrice, scaledVol, Number.scale, Number.mul, numberFromFloat,
      roundToPrec, round_eq, reconcileEpsilon, strategyC8a, offerC8, orderC8]
  have hdiffb : sameOrderParams strategyC8b offerC8 orderC8 1 false = false := by
    norm_num [sameOrderParams, Number.equalsPrecisionNormalized, effectiveOldPrice,
      effectiveOldVol, scaledPrice, scaledVol, Number.scale, Number.mul, numberFromFloat,
      roundToPrec, round_eq, reconcileEpsilon, strategyC8a, strategyC8b, offerC8, orderC8]
  have hlta : (offerAmountCapped strategyC8a orderC8).val <
      strategyC8a.backingMinBaseVolume.val := by
    norm_num [offerAmountCapped, scaledVol, Number.scale, numberFromFloat,
      numberByCappingPrecision, roundToPrec, truncToPrec, round_eq, strategyC8a, orderC8]
  have hgeb : ¬ (offerAmountCapped strategyC8b orderC8).val <
      strategyC8b.backingMinBaseVolume.val := by
    norm_num [offerAmountCapped, scaledVol, Number.scale, numberFromFloat,
      numberByCappingPrecision, roundToPrec, truncToPrec, round_eq, strategyC8a,
      strategyC8b, orderC8]
  refine ⟨⟨hdiffa, hlta, ?_⟩, ⟨hdiffb, hgeb, ?_⟩⟩
  · exact (doModifyOffer_changed_C8 strategyC8a modifyFnC8 offerC8 orderC8 1 false []
      hdiffa).1 hlta
  · exact (doModifyOffer_changed_C8 strategyC8b modifyFnC8 offerC8 orderC8 1 false []
      hdiffb).2 5 hgeb rfl

/-! ## C6: buy orders and the volume filter -/

/-- **C6 (amended)**: every buy order (selling the quote asset for the base
asset) is *dropped* by the volume filter's per-operation function — it
returns the nil "dropped" marker and leaves the to-be-booked totals
unchanged — for any configuration and any running totals.  Buy-side
enforcement is unimplemented; buy orders do not pass through. -/
theorem volumeFilterFn_drops_buys_C6 (baseAsset quoteAsset : String)
    (config : VolumeFilterConfig) (otbBase otbQuote : ℚ) (tbb : DailyTBB)
    (op : SellOp) (hsell : op.selling = quoteAsset) (hbuy : op.buying = baseAsset)
    (hne : quoteAsset ≠ baseAsset) :
    volumeFilterFn baseAsset quoteAsset config otbBase otbQuote tbb op =
      .ok (none, tbb) := by
  have hbuyCheck : isSelling baseAsset quoteAsset op.selling op.buying = .ok false := by
    unfold isSelling
    rw [if_neg, if_pos ⟨hsell, hbuy⟩]
    rintro ⟨h1, -⟩
    exact hne (hsell ▸ h1)
  simp [volumeFilterFn, hbuyCheck, Bind.bind, Except.bind]

/-- **C6 (counterexample)**: with a base-unit cap of 100, nothing yet sold
and a single buy operation submitted, `Apply` returns the empty operation
list — the buy order is not kept in the output. -/
theorem volumeFilterApply_drops_buy_C6_cex :
    volumeFilterApply "BASE" "QUOTE" ⟨some 100, none, .exact⟩ (.ok ⟨0, 0⟩)
        [buyOpC6] = .ok [] ∧
    buyOpC6 ∉ ([] : List SellOp) := by
  constructor
  · simp [volumeFilterApply, filterOps, volumeFilterFn, isSelling, buyOpC6,
      Bind.bind, Except.bind]
  · simp

/-- Witness for the amended C6 theorem at a concrete buy operation and
concrete nonzero running totals. -/
theorem volumeFilterFn_drops_buys_C6_witness :
    buyOpC6.selling = "QUOTE" ∧ buyOpC6.buying = "BASE" ∧
    volumeFilterFn "BASE" "QUOTE" ⟨some 100, some 200, .exact⟩ 80 90 ⟨3, 4⟩ buyOpC6 =
      .ok (none, ⟨3, 4⟩) := by
  refine ⟨rfl, rfl, ?_⟩
  exact volumeFilterFn_drops_buys_C6 "BASE" "QUOTE" ⟨some 100, some 200, .exact⟩
    80 90 ⟨3, 4⟩ buyOpC6 rfl rfl (by simp)

/-! ## C9: the fill-offset sizing decision -/

/-- **C9 (amended)**: with uncommitted surplus `u = total − committed`
(computed at the operands' matching precision) and backing minimum volume
`m`, the offset decision is a total function of `u` and `m`: if
`u < m/2` no volume is offset; if `u > m` the offset volume is `u` capped at
the backing venue's volume precision; if `m/2 ≤ u ≤ m` the offset volume is
`m` capped at the backing venue's volume precision (accepting a temporary
deficit). -/
theorem baseVolumeToOffset_cases_C9 (s : MirrorStrategy) (sp : AssetSurplus) :
    ((sp.total.sub sp.committed).val < (s.backingMinBaseVolume.scale (1 / 2)).val →
      baseVolumeToOffset s sp = none) ∧
    (¬ (sp.total.sub sp.committed).val < (s.backingMinBaseVolume.scale (1 / 2)).val →
      (sp.total.sub sp.committed).val > s.backingMinBaseVolume.val →
      baseVolumeToOffset s sp =
        some (numberByCappingPrecision (sp.total.sub sp.committed)
          s.backingVolumePrecision)) ∧
    (¬ (sp.total.sub sp.committed).val < (s.backingMinBaseVolume.scale (1 / 2)).val →
      ¬ (sp.total.sub sp.committed).val > s.backingMinBaseVolume.val →
      baseVolumeToOffset s sp =
        some (numberByCappingPrecision s.backingMinBaseVolume
          s.backingVolumePrecision)) := by
  unfold baseVolumeToOffset
  dsimp only
  refine ⟨fun h1 => ?_, fun h1 h2 => ?_, fun h1 h2 => ?_⟩
  · rw [if_pos h1]
  · rw [if_neg h1, if_pos h2]
  · rw [if_neg h1, if_neg h2]

/-- **C9 (counterexample)**: with total 1.25, committed 0 (uncommitted
surplus `u = 1.25`), backing minimum `m = 1` and backing volume precision of
one decimal digit, `u > m` holds but the offset volume is the
precision-capped 1.2, not exactly `u = 1.25`. -/
theorem baseVolumeToOffset_caps_uncommitted_C9_cex :
    ((⟨5 / 4, 2⟩ : Number).sub ⟨0, 2⟩).val = 5 / 4 ∧
    strategyC9.backingMinBaseVolume.val < 5 / 4 ∧
    baseVolumeToOffset strategyC9 ⟨⟨5 / 4, 2⟩, ⟨0, 2⟩⟩ = some ⟨6 / 5, 1⟩ ∧
    (6 / 5 : ℚ) ≠ 5 / 4 := by
  refine ⟨?_, ?_, ?_, by norm_num⟩
  · norm_num [Number.sub, numberFromFloat, roundToPrec, round_eq]
  · norm_num [strategyC9]
  · norm_num [baseVolumeToOffset, Number.sub, Number.scale, numberFromFloat,
      numberByCappingPrecision, roundToPrec, truncToPrec, round_eq, strategyC9]

/-- Witness for the amended C9 theorem, exercising all three branches. -/
theorem baseVolumeToOffset_cases_C9_witness :
    baseVolumeToOffset strategyC9 ⟨⟨0, 2⟩, ⟨0, 2⟩⟩ = none ∧
    baseVolumeToOffset strategyC9 ⟨⟨5 / 4, 2⟩, ⟨0, 2⟩⟩ =
      some (numberByCappingPrecision ((⟨5 / 4, 2⟩ : Number).sub ⟨0, 2⟩)
        strategyC9.backingVolumePrecision) ∧
    baseVolumeToOffset strategyC9 ⟨⟨3 / 4, 2⟩, ⟨0, 2⟩⟩ =
      some (numberByCappingPrecision strategyC9.backingMinBaseVolume
        strategyC9.backingVolumePrecision) := by
  have h1 : ((⟨0, 2⟩ : Number).sub ⟨0, 2⟩).val <
      (strategyC9.backingMinBaseVolume.scale (1 / 2)).val := by
    norm_num [Number.sub, Number.scale, numberFromFloat, roundToPrec, round_eq,
      strategyC9]
  have h2a : ¬ ((⟨5 / 4, 2⟩ : Number).sub ⟨0, 2⟩).val <
      (strategyC9.backingMinBaseVolume.scale (1 / 2)).val := by
    norm_num [Number.sub, Number.scale, numberFromFloat, roundToPrec, round_eq,
      strategyC9]
  have h2b : ((⟨5 / 4, 2⟩ : Number).sub ⟨0, 2⟩).val >
      strategyC9.backingMinBaseVolume.val := by
    norm_num [Number.sub, numberFromFloat, roundToPrec, round_eq, strategyC9]
  have h3a : ¬ ((⟨3 / 4, 2⟩ : Number).sub ⟨0, 2⟩).val <
      (strategyC9.backingMinBaseVolume.scale (1 / 2)).val := by
    norm_num [Number.sub, Number.scale, numberFromFloat, roundToPrec, round_eq,
      strategyC9]
  have h3b : ¬ ((⟨3 / 4, 2⟩ : Number).sub ⟨0, 2⟩).val >
      strategyC9.backingMinBaseVolume.val := by
    norm_num [Number.sub, numberFromFloat, roundToPrec, round_eq, strategyC9]
  exact ⟨(baseVolumeToOffset_cases_C9 strategyC9 ⟨⟨0, 2⟩, ⟨0, 2⟩⟩).1 h1,
    (baseVolumeToOffset_cases_C9 strategyC9 ⟨⟨5 / 4, 2⟩, ⟨0, 2⟩⟩).2.1 h2a h2b,
    (baseVolumeToOffset_cases_C9 strategyC9 ⟨⟨3 / 4, 2⟩, ⟨0, 2⟩⟩).2.2 h3a h3b⟩

/-! ## C5: hedge-submission failure leaves the surplus committed -/

/-- **C5**: when the fill handler submits the hedge order and the venue
returns an error or a nil transaction identifier, `HandleFill` returns an
error and the surplus record keeps both the total increased by this fill's
volume and the committed amount increased by the reserved offset volume —
neither is rolled back. -/
theorem handleFill_failure_keeps_committed_C5 (s : MirrorStrategy)
    (addOrder : AddOrderFn) (m : BaseSurplus) (trade : Trade) (v : Number)
    (hv : baseVolumeToOffset s (bumpTotal (m.get trade.orderAction.reverse)
        trade.volume) = some v)
    (hfail : isSubmitFailure (addOrder (offsetOrder s trade.orderAction.reverse
        trade v)) = true) :
    exceptIsOk (handleFill s addOrder m trade).1 = false ∧
    (handleFill s addOrder m trade).2 =
      m.set trade.orderAction.reverse
        ⟨(m.get trade.orderAction.reverse).total.add trade.volume,
          (m.get trade.orderAction.reverse).committed.add v⟩ := by
  unfold handleFill
  dsimp only
  rw [hv]
  dsimp only
  cases ha : addOrder (offsetOrder s trade.orderAction.reverse trade v) with
  | error e => exact ⟨rfl, rfl⟩
  | ok t =>
    cases t with
    | none => exact ⟨rfl, rfl⟩
    | some tid =>
      rw [ha] at hfail
      simp [isSubmitFailure] at hfail

/-- Witness for C5: a sell fill of volume 1 with empty prior surplus reserves
exactly the backing minimum 1; the venue returns a nil transaction
identifier, and the surplus map keeps total = 1 and committed = 1. -/
theorem handleFill_failure_keeps_committed_C5_witness :
    baseVolumeToOffset strategyC5 (bumpTotal (surplusC5.get tradeC5.orderAction.reverse)
        tradeC5.volume) = some ⟨1, 2⟩ ∧
    exceptIsOk (handleFill strategyC5 addOrderNilC5 surplusC5 tradeC5).1 = false ∧
    (handleFill strategyC5 addOrderNilC5 surplusC5 tradeC5).2 =
      surplusC5.set tradeC5.orderAction.reverse
        ⟨(surplusC5.get tradeC5.orderAction.reverse).total.add tradeC5.volume,
          (surplusC5.get tradeC5.orderAction.reverse).committed.add ⟨1, 2⟩⟩ := by
  have hv : baseVolumeToOffset strategyC5
      (bumpTotal (surplusC5.get tradeC5.orderAction.reverse) tradeC5.volume) =
      some ⟨1, 2⟩ := by
    norm_num [baseVolumeToOffset, bumpTotal, BaseSurplus.get, OrderAction.reverse,
      surplusC5, tradeC5, strategyC5, Number.sub, Number.add, Number.scale,
      numberFromFloat, numberByCappingPrecision, roundToPrec, truncToPrec, round_eq]
  have hfail : isSubmitFailure (addOrderNilC5 (offsetOrder strategyC5
      tradeC5.orderAction.reverse tradeC5 ⟨1, 2⟩)) = true := rfl
  have hmain := handleFill_failure_keeps_committed_C5 strategyC5 addOrderNilC5
    surplusC5 tradeC5 ⟨1, 2⟩ hv hfail
  exact ⟨hv, hmain.1, hmain.2⟩

/-! ## C7: bucket-index jumps are hard errors -/

/-- **C7**: when prior scheduler state exists and the just-computed bucket
index is neither the active bucket's index (same bucket) nor exactly one more
(the only legal cutover), the scheduling call fails with an error and returns
no level — it never silently resynchronizes to the new index. -/
theorem getLevels_bucket_jump_errors_C7 (P : TwapParams) (st : TwapState)
    (inp : TwapInputs) (active : BucketInfo)
    (hactive : st.activeBucket = some active)
    (hneq : computedBucketID P inp ≠ active.id)
    (hnotnext : computedBucketID P inp ≠ active.id + 1) :
    exceptIsOk (getLevels P st inp).2 = false := by
  have hbucket : makeBucketInfo P st inp (makeRoundID st) =
      .error "new bucketID was not one more than the previous bucketID" := by
    unfold makeBucketInfo
    rw [hactive]
    dsimp only
    rw [if_neg hneq]
    unfold cutoverToNewBucket
    rw [if_pos hnotnext]
  unfold getLevels
  dsimp only
  rw [hbucket]
  rfl

/-- Witness for C7: bucket index 5 computed against an active bucket at
index 1 makes the scheduling call fail. -/
theorem getLevels_bucket_jump_errors_C7_witness :
    stateC7.activeBucket = some activeBucketC7 ∧
    computedBucketID paramsC7 inputsC7 = 5 ∧ activeBucketC7.id = 1 ∧
    exceptIsOk (getLevels paramsC7 stateC7 inputsC7).2 = false := by
  have hcomp : computedBucketID paramsC7 inputsC7 = 5 := by
    norm_num [computedBucketID, paramsC7, inputsC7]
  refine ⟨rfl, hcomp, rfl, ?_⟩
  refine getLevels_bucket_jump_errors_C7 paramsC7 stateC7 inputsC7 activeBucketC7
    rfl ?_ ?_
  · rw [hcomp]; decide
  · rw [hcomp]; decide

/-! ## C10: scheduler errors leave persistent state untouched -/

/-- **C10**: whenever `GetLevels` returns an error — from the daily-volume
query, a bucket-index invariant violation, or the price feed — the
scheduler's persistent state (`activeBucket` and `previousRoundID`) is left
exactly as it was before the call. -/
theorem getLevels_error_preserves_state_C10 (P : TwapParams) (st : TwapState)
    (inp : TwapInputs)
    (herr : exceptIsOk (getLevels P st inp).2 = false) :
    (getLevels P st inp).1 = st := by
  unfold getLevels at herr ⊢
  dsimp only at herr ⊢
  cases hb : makeBucketInfo P st inp (makeRoundID st) with
  | error e => rfl
  | ok bucket =>
    rw [hb] at herr
    dsimp only at herr ⊢
    cases hr : makeRoundInfo inp (makeRoundID st) bucket with
    | error e => rfl
    | ok round =>
      rw [hr] at herr
      simp [exceptIsOk] at herr

/-- Witness for C10: a failing daily-volume-capacity query makes the call
error and leaves the fresh state unchanged. -/
theorem getLevels_error_preserves_state_C10_witness :
    exceptIsOk (getLevels paramsC7 stateC10 inputsC10).2 = false ∧
    (getLevels paramsC7 stateC10 inputsC10).1 = stateC10 := by
  have herr : exceptIsOk (getLevels paramsC7 stateC10 inputsC10).2 = false := by
    simp [getLevels, makeBucketInfo, makeFirstBucketFrame, stateC10, inputsC10,
      exceptIsOk, Bind.bind, Except.bind]
  exact ⟨herr, getLevels_error_preserves_state_C10 paramsC7 stateC10 inputsC10 herr⟩

/-! ## C4: the surplus redistribution is front-loaded -/

theorem geom_first_term_gt_average (r S : ℚ) (n : ℕ) (N : ℤ)
    (hr0 : 0 ≤ r) (hr1 : r < 1) (hS : 0 < S) (hN : 2 ≤ N)
    (hn1 : 1 ≤ n) (hnN : (n : ℤ) ≤ N) :
    S / (N : ℚ) < S * (r - 1) / (r ^ n - 1) := by
  have hNQ : (2 : ℚ) ≤ (N : ℚ) := by exact_mod_cast hN
  have hN0 : (0 : ℚ) < (N : ℚ) := by linarith
  have hrne : r - 1 ≠ 0 := sub_ne_zero.mpr (ne_of_lt hr1)
  have hG1 : (1 : ℚ) ≤ ∑ i ∈ Finset.range n, r ^ i := by
    calc (1 : ℚ) = r ^ 0 := (pow_zero r).symm
    _ ≤ ∑ i ∈ Finset.range n, r ^ i := by
        apply Finset.single_le_sum (fun i _ => pow_nonneg hr0 i)
        simpa using hn1
  have hGN : (∑ i ∈ Finset.range n, r ^ i) < (N : ℚ) := by
    rcases eq_or_lt_of_le hn1 with h1 | h2
    · rw [← h1]
      simpa using by linarith
    · have hsum : (∑ i ∈ Finset.range n, r ^ i) < ∑ i ∈ Finset.range n, (1 : ℚ) := by
        refine Finset.sum_lt_sum (fun i _ => pow_le_one₀ hr0 (le_of_lt hr1)) ?_
        refine ⟨1, Finset.mem_range.mpr h2, ?_⟩
        simpa using hr1
      have hnQ : ((n : ℚ)) ≤ (N : ℚ) := by exact_mod_cast hnN
      calc (∑ i ∈ Finset.range n, r ^ i) < ∑ i ∈ Finset.range n, (1 : ℚ) := hsum
      _ = (n : ℚ) := by simp
      _ ≤ (N : ℚ) := hnQ
  have hkey : S * (r - 1) / (r ^ n - 1) = S / ∑ i ∈ Finset.range n, r ^ i := by
    rw [← geom_sum_mul r n, mul_div_mul_right S _ hrne]
  rw [hkey]
  exact div_lt_div_of_pos_left hS (by linarith) hGN

/-- **C4 (amended)**: the increment folded into the next bucket equals
`a = S × (r − 1) / (r^n − 1)` with `n = ceil(ceiling-fraction ×
remaining-buckets)` (definitionally, in `firstDistributionOfBaseSurplus`),
and for any surplus `S > 0` it is strictly greater than
`S / totalRemainingBuckets` for every smoothing ratio `0 ≤ r < 1` —
provided at least two buckets remain and the distribution ceiling fraction
is positive (with exactly one remaining bucket the increment equals `S`
exactly, not strictly more; see the counterexample). -/
theorem firstDistribution_frontloaded_C4 (P : TwapParams) (S : ℚ) (N : ℤ)
    (hr0 : 0 ≤ P.exponentialSmoothingFactor)
    (hr1 : P.exponentialSmoothingFactor < 1)
    (hc0 : 0 < P.distributeSurplusOverRemainingIntervalsPercentCeiling)
    (hc1 : P.distributeSurplusOverRemainingIntervalsPercentCeiling ≤ 1)
    (hS : 0 < S) (hN : 2 ≤ N) :
    S / (N : ℚ) < firstDistributionOfBaseSurplus P S N := by
  have hN0 : (0 : ℚ) < (N : ℚ) := by exact_mod_cast lt_of_lt_of_le two_pos hN
  have hceil1 : 1 ≤ ⌈P.distributeSurplusOverRemainingIntervalsPercentCeiling *
      (N : ℚ)⌉ := by
    have hpos : (0 : ℚ) < P.distributeSurplusOverRemainingIntervalsPercentCeiling *
        (N : ℚ) := mul_pos hc0 hN0
    exact Int.ceil_pos.mpr hpos
  have hceilN : ⌈P.distributeSurplusOverRemainingIntervalsPercentCeiling *
      (N : ℚ)⌉ ≤ N := by
    apply Int.ceil_le.mpr
    calc P.distributeSurplusOverRemainingIntervalsPercentCeiling * (N : ℚ)
        ≤ 1 * (N : ℚ) := mul_le_mul_of_nonneg_right hc1 (le_of_lt hN0)
    _ = ((N : ℤ) : ℚ) := by rw [one_mul]
  have hn1 : 1 ≤ surplusHorizon P N := by
    unfold surplusHorizon
    omega
  have hnN : ((surplusHorizon P N : ℕ) : ℤ) ≤ N := by
    unfold surplusHorizon
    omega
  unfold firstDistributionOfBaseSurplus
  exact geom_first_term_gt_average P.exponentialSmoothingFactor S
    (surplusHorizon P N) N hr0 hr1 hS hN hn1 hnN

/-- **C4 (counterexample)**: with one remaining bucket (`N = 1`), ceiling
fraction 1, smoothing ratio `r = 1/2 < 1` and a fully-unsold prior bucket of
capacity `S = 1 > 0`, the redistributed increment equals `S` exactly and is
*not* strictly greater than `S / totalRemainingBuckets = 1`. -/
theorem firstDistribution_not_frontloaded_C4_cex :
    paramsC4.exponentialSmoothingFactor < 1 ∧ (0 : ℚ) < 1 ∧
    firstDistributionOfBaseSurplus paramsC4 1 1 = 1 ∧
    ¬ ((1 : ℚ) / ((1 : ℤ) : ℚ) < firstDistributionOfBaseSurplus paramsC4 1 1) := by
  have hval : firstDistributionOfBaseSurplus paramsC4 1 1 = 1 := by
    norm_num [firstDistributionOfBaseSurplus, surplusHorizon, paramsC4]
  refine ⟨by norm_num [paramsC4], by norm_num, hval, ?_⟩
  rw [hval]
  norm_num

/-- Witness for the amended C4 theorem: with two remaining buckets the
increment 2/3 strictly exceeds `S / N = 1/2`. -/
theorem firstDistribution_frontloaded_C4_witness :
    (1 : ℚ) / ((2 : ℤ) : ℚ) < firstDistributionOfBaseSurplus paramsC4 1 2 ∧
    firstDistributionOfBaseSurplus paramsC4 1 2 = 2 / 3 := by
  constructor
  · exact firstDistribution_frontloaded_C4 paramsC4 1 2 (by norm_num [paramsC4])
      (by norm_num [paramsC4]) (by norm_num [paramsC4]) (by norm_num [paramsC4])
      (by norm_num) (by norm_num)
  · have hceil : ⌈paramsC4.distributeSurplusOverRemainingIntervalsPercentCeiling *
        (((2 : ℤ)) : ℚ)⌉ = 2 := by
      norm_num [paramsC4]
    have hhor : surplusHorizon paramsC4 2 = 2 := by
      unfold surplusHorizon
      rw [hceil]
      rfl
    unfold firstDistributionOfBaseSurplus
    rw [hhor]
    norm_num [paramsC4]

end Spec2Proof
